import Mathlib

/-!
Verification of the `safecast` conversion protocol.

The library defines traits `CastFrom` / `CastInto` (unconditional casts),
`TryCastFrom` / `TryCastInto` (fallible casts), the convenience trait `Match`,
the container-access trait `AsType`, and the code generator `as_type!`.
Each trait is embedded as a structure of its methods; each blanket
implementation becomes a function producing the derived structure from the
primitive one; the concrete test-suite types `Foo`, `Bar`, `Baz`, `FooBar`
and their implementations are embedded directly.
-/

namespace Safecast

/-- The host language's `From` trait, viewed as a conversion function
from `S` to `T` (in Rust, `impl From<S> for T`). -/
structure FromImpl (S T : Type) where
  from_fn : S → T

/-- The trait `CastFrom`: `impl CastFrom<S> for T` provides
`fn cast_from(value: S) -> T`. -/
structure CastFromImpl (S T : Type) where
  cast_from : S → T

/-- The trait `CastInto`: `impl CastInto<T> for S` provides
`fn cast_into(self: S) -> T`. -/
structure CastIntoImpl (S T : Type) where
  cast_into : S → T

/-- Blanket implementation `impl<F, T: From<F>> CastFrom<F> for T`:
`cast_from` delegates to `T::from`. -/
def castFromOfFrom {S T : Type} (f : FromImpl S T) : CastFromImpl S T :=
  ⟨fun s => f.from_fn s⟩

/-- Blanket implementation `impl<T, F: CastFrom<T>> CastInto<F> for T`:
`cast_into` delegates to `F::cast_from`. -/
def castIntoOfCastFrom {S T : Type} (c : CastFromImpl S T) : CastIntoImpl S T :=
  ⟨fun s => c.cast_from s⟩

/-- The trait `TryCastFrom`: `impl TryCastFrom<S> for T` provides the
eligibility test `can_cast_from` (borrowing) and the consuming conversion
`opt_cast_from`. -/
structure TryCastFromImpl (S T : Type) where
  can_cast_from : S → Bool
  opt_cast_from : S → Option T

/-- The provided method `TryCastFrom::try_cast_from`: if `can_cast_from`
holds it unwraps `opt_cast_from`, otherwise it calls `on_err` on a borrow of
the value.  The outer `Option` models the possible abort of `Option::unwrap`:
`none` is the panic that occurs when an implementation violates the
eligibility-implies-success contract. -/
def try_cast_from {S T E : Type} (i : TryCastFromImpl S T) (value : S)
    (on_err : S → E) : Option (Except E T) :=
  if i.can_cast_from value then (i.opt_cast_from value).map Except.ok
  else some (Except.error (on_err value))

/-- The trait `TryCastInto`: `impl TryCastInto<T> for S` provides
`can_cast_into` (borrowing `self`) and the consuming `opt_cast_into`. -/
structure TryCastIntoImpl (S T : Type) where
  can_cast_into : S → Bool
  opt_cast_into : S → Option T

/-- The provided method `TryCastInto::try_cast_into`, mirroring
`try_cast_from`; the outer `Option` again models the unwrap abort. -/
def try_cast_into {S T E : Type} (i : TryCastIntoImpl S T) (value : S)
    (on_err : S → E) : Option (Except E T) :=
  if i.can_cast_into value then (i.opt_cast_into value).map Except.ok
  else some (Except.error (on_err value))

/-- Blanket implementation `impl<F, T: CastFrom<F>> TryCastFrom<F> for T`:
`can_cast_from` is constantly `true` and `opt_cast_from` always returns
`Some(T::cast_from(f))`. -/
def tryCastFromOfCastFrom {S T : Type} (c : CastFromImpl S T) :
    TryCastFromImpl S T :=
  ⟨fun _ => true, fun f => some (c.cast_from f)⟩

/-- Blanket implementation `impl<F, T: TryCastFrom<F>> TryCastInto<T> for F`:
both methods delegate to the from-direction implementation on `T`. -/
def tryCastIntoOfTryCastFrom {S T : Type} (i : TryCastFromImpl S T) :
    TryCastIntoImpl S T :=
  ⟨fun s => i.can_cast_from s, fun s => i.opt_cast_from s⟩

/-- The provided method `Match::matches::<T>`, available on every type:
pure delegation to `T::can_cast_from`. -/
def Match.matches {S T : Type} (i : TryCastFromImpl S T) (s : S) : Bool :=
  i.can_cast_from s

/-- The trait `AsType`: borrow, mutably borrow, or consume a container as one
of its variant payload types.  References are modelled by the payload value
they denote. -/
structure AsTypeImpl (C T : Type) where
  as_type : C → Option T
  as_type_mut : C → Option T
  into_type : C → Option T

/- The test-suite types. -/

/-- Test type `Foo { a: i32 }`; the field holds the mathematical value of the
signed 32-bit integer. -/
structure Foo where
  a : Int
  deriving DecidableEq

/-- Test type `Bar { b: u32 }`; the field holds the mathematical value of the
unsigned 32-bit integer. -/
structure Bar where
  b : Nat
  deriving DecidableEq

/-- Test type `Baz { bar: Bar }`. -/
structure Baz where
  bar : Bar
  deriving DecidableEq

/-- Test enum `FooBar { Foo(Foo), Bar(Bar), Baz(Baz) }`. -/
inductive FooBar where
  | foo : Foo → FooBar
  | bar : Bar → FooBar
  | baz : Baz → FooBar

/-- The runtime tag test: whether a `FooBar` value currently holds the
variant with tag `Bar`. -/
def FooBar.isBarVariant : FooBar → Bool
  | FooBar.bar _ => true
  | _ => false

/-- Rust's `as u32` applied to an in-range `i32` value: the bits are
reinterpreted, so a nonnegative value maps to itself and a negative value
maps to its two's-complement representative `a + 2 ^ 32`. -/
def i32_as_u32 (a : Int) : Nat :=
  if 0 ≤ a then a.toNat else (a + 2 ^ 32).toNat

/-- `impl CastFrom<Foo> for Bar`: `Bar { b: foo.a as u32 }`. -/
def barCastFromFoo : CastFromImpl Foo Bar :=
  ⟨fun foo => ⟨i32_as_u32 foo.a⟩⟩

/-- `impl TryCastFrom<Bar> for Baz`: eligible exactly when `bar.b == 0`, and
`opt_cast_from` wraps the `Bar` when `bar.b == 0`, returning `None`
otherwise. -/
def bazTryCastFromBar : TryCastFromImpl Bar Baz :=
  ⟨fun bar => bar.b == 0, fun bar => if bar.b == 0 then some ⟨bar⟩ else none⟩

/-- Expansion of `as_type!(FooBar, Bar, Bar)`: `impl From<Bar> for FooBar`
wraps the payload in the `Bar` variant. -/
def fooBarFromBar : FromImpl Bar FooBar :=
  ⟨fun t => FooBar.bar t⟩

/-- Expansion of `as_type!(FooBar, Bar, Bar)`: `impl AsType<Bar> for FooBar`,
where all three methods match on the `Bar` variant and return its payload. -/
def fooBarAsTypeBar : AsTypeImpl FooBar Bar :=
  ⟨fun c => match c with | FooBar.bar v => some v | _ => none,
   fun c => match c with | FooBar.bar v => some v | _ => none,
   fun c => match c with | FooBar.bar v => some v | _ => none⟩

/- Claim theorems. -/

/-- Claim C1: for every `CastFrom<S>` implementation for `T` and every value
`s` of `S`, the blanket-derived `CastInto` implementation satisfies
`s.cast_into() == T::cast_from(s)`. -/
theorem cast_into_eq_cast_from {S T : Type} (c : CastFromImpl S T) (s : S) :
    (castIntoOfCastFrom c).cast_into s = c.cast_from s := rfl

/-- Claim C2: for every `CastFrom<S>` implementation for `T`, the derived
`TryCastFrom` implementation has `can_cast_from` constantly `true` and
`opt_cast_from s = Some(T::cast_from(s))`, never `None`. -/
theorem derived_try_cast_always_succeeds {S T : Type} (c : CastFromImpl S T)
    (s : S) :
    (tryCastFromOfCastFrom c).can_cast_from s = true ∧
    (tryCastFromOfCastFrom c).opt_cast_from s = some (c.cast_from s) :=
  ⟨rfl, rfl⟩

/-- Claim C3: for every `TryCastFrom` implementation satisfying the
eligibility-implies-success invariant, `try_cast_from s on_err` returns `Ok`
exactly when `can_cast_from` holds (with the value `opt_cast_from` contains),
and otherwise returns `Err (on_err s)`. -/
theorem try_cast_from_ok_iff {S T E : Type} (i : TryCastFromImpl S T)
    (hinv : ∀ v, i.can_cast_from v = true → (i.opt_cast_from v).isSome = true)
    (s : S) (on_err : S → E) :
    (i.can_cast_from s = true →
      ∃ t, i.opt_cast_from s = some t ∧
        try_cast_from i s on_err = some (Except.ok t)) ∧
    (i.can_cast_from s = false →
      try_cast_from i s on_err = some (Except.error (on_err s))) := by
  constructor
  · intro h
    obtain ⟨t, ht⟩ := Option.isSome_iff_exists.mp (hinv s h)
    exact ⟨t, ht, by simp [try_cast_from, h, ht]⟩
  · intro h
    simp [try_cast_from, h]

/-- Witness for C3 at the concrete implementation `TryCastFrom<Bar> for Baz`
and the input `Bar { b: 0 }`. -/
theorem try_cast_from_ok_iff_witness :
    (∀ v, bazTryCastFromBar.can_cast_from v = true →
      (bazTryCastFromBar.opt_cast_from v).isSome = true) ∧
    ((bazTryCastFromBar.can_cast_from ⟨0⟩ = true →
      ∃ t, bazTryCastFromBar.opt_cast_from ⟨0⟩ = some t ∧
        try_cast_from bazTryCastFromBar ⟨0⟩ (fun _ => (0 : Nat)) =
          some (Except.ok t)) ∧
    (bazTryCastFromBar.can_cast_from ⟨0⟩ = false →
      try_cast_from bazTryCastFromBar ⟨0⟩ (fun _ => (0 : Nat)) =
        some (Except.error 0))) := by
  have hinv : ∀ v, bazTryCastFromBar.can_cast_from v = true →
      (bazTryCastFromBar.opt_cast_from v).isSome = true := by
    intro v h
    simp only [bazTryCastFromBar] at h ⊢
    simp [h]
  exact ⟨hinv, try_cast_from_ok_iff bazTryCastFromBar hinv ⟨0⟩ (fun _ => 0)⟩

/-- Claim C4: for every `TryCastFrom<S>` implementation for `T` and every
value `s`, the universal `Match` method satisfies
`s.matches::<T>() == T::can_cast_from(&s)`. -/
theorem matches_eq_can_cast_from {S T : Type} (i : TryCastFromImpl S T)
    (s : S) : Match.matches i s = i.can_cast_from s := rfl

/-- Claim C5: the blanket-derived `TryCastInto` implementation mirrors the
from-direction exactly: `can_cast_into` equals `can_cast_from` and
`opt_cast_into` equals `opt_cast_from` on every value. -/
theorem try_cast_into_mirrors {S T : Type} (i : TryCastFromImpl S T) (s : S) :
    (tryCastIntoOfTryCastFrom i).can_cast_into s = i.can_cast_from s ∧
    (tryCastIntoOfTryCastFrom i).opt_cast_into s = i.opt_cast_from s :=
  ⟨rfl, rfl⟩

/-- Claim C6: for the container generated by `as_type!(FooBar, Bar, Bar)`,
`as_type`, `as_type_mut` and `into_type` each return a present result exactly
when the value's runtime tag is `Bar` — all three agree on eligibility. -/
theorem as_type_agree (c : FooBar) :
    (fooBarAsTypeBar.as_type c).isSome = c.isBarVariant ∧
    (fooBarAsTypeBar.as_type_mut c).isSome = c.isBarVariant ∧
    (fooBarAsTypeBar.into_type c).isSome = c.isBarVariant := by
  cases c <;> simp [fooBarAsTypeBar, FooBar.isBarVariant]

/-- Claim C7: round trip through the generated variant binding: wrapping a
`Bar` payload via `FooBar::from` (equivalently `FooBar::cast_from`, by the
blanket rule) and then querying `as_type` returns a reference to a value
equal to the payload, and `into_type` returns the payload itself. -/
theorem as_type_round_trip (t : Bar) :
    (castFromOfFrom fooBarFromBar).cast_from t = fooBarFromBar.from_fn t ∧
    fooBarAsTypeBar.as_type ((castFromOfFrom fooBarFromBar).cast_from t) =
      some t ∧
    fooBarAsTypeBar.into_type ((castFromOfFrom fooBarFromBar).cast_from t) =
      some t :=
  ⟨rfl, rfl, rfl⟩

/-- Claim C8: for the primitive fallible edge `TryCastFrom<Bar> for Baz`,
`can_cast_from` holds iff `opt_cast_from` is present, both exactly when
`bar.b == 0`; in particular the claimed results at `Bar { b: 0 }` and
`Bar { b: 1 }`. -/
theorem baz_try_cast_from_bar_inv (bar : Bar) :
    (bazTryCastFromBar.can_cast_from bar = true ↔
      (bazTryCastFromBar.opt_cast_from bar).isSome = true) ∧
    (bazTryCastFromBar.can_cast_from bar = true ↔ bar.b = 0) ∧
    bazTryCastFromBar.can_cast_from ⟨0⟩ = true ∧
    bazTryCastFromBar.opt_cast_from ⟨0⟩ = some ⟨⟨0⟩⟩ ∧
    bazTryCastFromBar.can_cast_from ⟨1⟩ = false ∧
    bazTryCastFromBar.opt_cast_from ⟨1⟩ = none := by
  refine ⟨?_, ?_, rfl, rfl, rfl, rfl⟩ <;>
    by_cases h : bar.b = 0 <;> simp [bazTryCastFromBar, h]

/-- Claim C9: on the failure path, `try_cast_from` (and the mirrored
`try_cast_into`) return an `Err` carrying exactly the value the `on_err`
callback constructed from a borrow of the source — for an arbitrary error
type, so nothing of the consumed source is returned beyond what `on_err`
itself produced. -/
theorem try_cast_err_payload {S T : Type} (i : TryCastFromImpl S T) (s : S)
    (h : i.can_cast_from s = false) (E : Type) (on_err : S → E) :
    try_cast_from i s on_err = some (Except.error (on_err s)) ∧
    try_cast_into (tryCastIntoOfTryCastFrom i) s on_err =
      some (Except.error (on_err s)) := by
  constructor <;>
    simp [try_cast_from, try_cast_into, tryCastIntoOfTryCastFrom, h]

/-- Witness for C9 at `TryCastFrom<Bar> for Baz` and the rejected input
`Bar { b: 1 }`. -/
theorem try_cast_err_payload_witness :
    bazTryCastFromBar.can_cast_from ⟨1⟩ = false ∧
    (try_cast_from bazTryCastFromBar ⟨1⟩ (fun _ => (7 : Nat)) =
      some (Except.error 7) ∧
    try_cast_into (tryCastIntoOfTryCastFrom bazTryCastFromBar) ⟨1⟩
      (fun _ => (7 : Nat)) = some (Except.error 7)) :=
  ⟨rfl, try_cast_err_payload bazTryCastFromBar ⟨1⟩ rfl Nat (fun _ => 7)⟩

/-- Claim C10: `Bar::cast_from(Foo)` is total and wraps the signed 32-bit
field: for every in-range `a`, the result is `Bar { b: a mod 2 ^ 32 }`, so
`Foo { a: -1 }` yields `Bar { b: 4294967295 }`. -/
theorem bar_cast_from_foo_wrap (a : Int) (h1 : -(2 ^ 31) ≤ a)
    (h2 : a < 2 ^ 31) :
    barCastFromFoo.cast_from ⟨a⟩ = ⟨(a % 2 ^ 32).toNat⟩ ∧
    barCastFromFoo.cast_from ⟨-1⟩ = ⟨4294967295⟩ := by
  have hpow : ∀ b : Int, -(2 ^ 31) ≤ b → b < 2 ^ 31 →
      i32_as_u32 b = (b % 2 ^ 32).toNat := by
    intro b hb1 hb2
    have e32 : (2 : Int) ^ 32 = 4294967296 := by norm_num
    have e31 : (2 : Int) ^ 31 = 2147483648 := by norm_num
    rw [e31] at hb1 hb2
    unfold i32_as_u32
    rw [e32]
    split <;> omega
  constructor
  · exact congrArg Bar.mk (hpow a h1 h2)
  · decide

/-- Witness for C10 at the input `Foo { a: -1 }`. -/
theorem bar_cast_from_foo_wrap_witness :
    (-(2 ^ 31) ≤ (-1 : Int) ∧ (-1 : Int) < 2 ^ 31) ∧
    (barCastFromFoo.cast_from ⟨-1⟩ = ⟨((-1 : Int) % 2 ^ 32).toNat⟩ ∧
      barCastFromFoo.cast_from ⟨-1⟩ = ⟨4294967295⟩) :=
  ⟨⟨by norm_num, by norm_num⟩,
    bar_cast_from_foo_wrap (-1) (by norm_num) (by norm_num)⟩

end Safecast
